import Mathlib

/-!
Verification of the pypowervm optimistic-concurrency transaction engine
(`pypowervm/utils/transaction.py`) against its natural-language specification.

The transaction module itself is not part of the provided sources (only its
test suite is), so every definition of the engine below is modelled from the
specification's description of EntryTransaction, Subtask, WrapperTask and
FeedTask (spec sections 3-7), with behaviour cross-checked against the test
suite in `pypowervm/tests/utils/test_transaction.py`.

The embedding is trace-based: each operation of the engine returns, besides
its functional result, the list of observable events (lock, fetch, subtask
invocation, refresh, update/persist, unlock) it performs, in order.
-/

/-- Modelled from the spec: Python runtime values returned by Subtask
`execute` methods.  The spec's Subtask contract (section 4.2) says any value
is accepted and interpreted by truthiness, so we model the value universe the
tests exercise: ints, strings, lists, dicts, booleans and None. -/
inductive PyVal : Type where
  | int (n : Int)
  | str (s : String)
  | list (xs : List PyVal)
  | dict (xs : List (String × PyVal))
  | bool (b : Bool)
  | pynone

/-- Modelled from the spec: Python truthiness, as used by the WrapperTask to
interpret a Subtask's return value ("falsy values (empty containers, zero,
empty string, explicit false) are treated identically to no change"). -/
def truthy : PyVal → Bool
  | .int n => n != 0
  | .str s => s != ""
  | .list xs => !xs.isEmpty
  | .dict xs => !xs.isEmpty
  | .bool b => b
  | .pynone => false

/-- Observable events of one transaction execution, mirroring the pseudo-log
of the test fixture WrapperTaskFx: lock/unlock of the per-key semaphore,
`get` (Fetch of a not-yet-materialized entity), `refresh` (re-fetch after a
conflict), `sub` (invocation of one Subtask, recording its name and the
positional/keyword arguments it was invoked with), `invoke` (invocation of a
generic decorated operation), and `update` (a Persist attempt). -/
inductive Event : Type where
  | lock (key : String)
  | unlock
  | get
  | refresh
  | invoke
  | sub (name : String) (args : List PyVal) (kwargs : List (String × PyVal))
  | update

def Event.isUpdate : Event → Bool
  | .update => true
  | _ => false

def Event.isGet : Event → Bool
  | .get => true
  | _ => false

def Event.isRefresh : Event → Bool
  | .refresh => true
  | _ => false

def Event.isSub : Event → Bool
  | .sub _ _ _ => true
  | _ => false

/-- Number of events in a trace satisfying a predicate. -/
def countEv (p : Event → Bool) : List Event → Nat
  | [] => 0
  | e :: rest => (if p e then 1 else 0) + countEv p rest

/-- Modelled from the spec: an Entity (section 3) — remote-backed object with
a stable unique key and otherwise opaque mutable state, abstracted by the
type parameter. -/
structure Entity (σ : Type) where
  key : String
  state : σ

/-- Modelled from the spec: EntityOrHandle (section 3) — either a live Entity
already fetched by the caller, or a lazy Handle binding a registered key to a
fetch capability.  The fetch capability is modelled by the entity that the
remote system would return. -/
inductive EntityOrGetter (σ : Type) : Type where
  | entry (e : Entity σ)
  | getter (key : String) (fetched : Entity σ)

/-- Modelled from the spec: the lock key of an EntryTransaction is the
entity's own key for a live entity, and the handle's registered key for a
handle (section 4.1 step 1). -/
def EntityOrGetter.lockKey {σ : Type} : EntityOrGetter σ → String
  | .entry e => e.key
  | .getter k _ => k

/-- Modelled from the spec: resolving an EntityOrHandle into a live Entity
(section 4.1 step 2): a handle is fetched now (one `get` event), a live
entity is used as-is (no event). -/
def EntityOrGetter.materialize {σ : Type} : EntityOrGetter σ → List Event × Entity σ
  | .entry e => ([], e)
  | .getter _ fe => ([Event.get], fe)

/-- Modelled from the spec: the error taxonomy of section 7. -/
inductive TxError : Type where
  | conflict
  | noSubtasks
  | valueError
  | emptyFeed
  | otherErr (msg : String)

/-- Modelled from the spec: the retry loop of EntryTransaction (section 4.1
steps 3-4).  An operation takes the attempt index (modelling external mutable
state across re-invocations) and the current entity, and returns its event
trace, the possibly-mutated entity, and success or an error.  On a conflict
the entity is refreshed (one `refresh` event) and the operation re-invoked,
up to `fuel` remaining retries; any other error, and a conflict with no fuel
left, is propagated. -/
def txRetryLoop {σ : Type}
    (op : Nat → Entity σ → List Event × Entity σ × Except TxError Unit)
    (refreshF : Entity σ → Entity σ) :
    Nat → Nat → Entity σ → List Event × Entity σ × Except TxError Unit
  | 0, attempt, e => op attempt e
  | fuel + 1, attempt, e =>
    let r := op attempt e
    match r.2.2 with
    | .ok _ => r
    | .error .conflict =>
      let r' := txRetryLoop op refreshF fuel (attempt + 1) (refreshF r.2.1)
      (r.1 ++ Event.refresh :: r'.1, r'.2)
    | .error err => (r.1, r.2.1, .error err)

/-- Modelled from the spec: the EntryTransaction protocol (section 4.1):
acquire the exclusive lock keyed by the authoritative identity source,
resolve the EntityOrHandle inside the lock, invoke the operation with
refresh-and-retry on conflict up to the `ceiling`, and release the lock on
every exit path. -/
def entry_transaction {σ : Type} (ceiling : Nat) (refreshF : Entity σ → Entity σ)
    (og : EntityOrGetter σ)
    (op : Nat → Entity σ → List Event × Entity σ × Except TxError Unit) :
    List Event × Entity σ × Except TxError Unit :=
  let m := og.materialize
  let r := txRetryLoop op refreshF ceiling 0 m.2
  (Event.lock og.lockKey :: (m.1 ++ r.1 ++ [Event.unlock]), r.2)

/-- Modelled from the spec: the decorator form of entry_transaction — a
higher-order function producing the transactional callable; the lock
machinery runs only when the produced callable is applied. -/
def entry_transaction_decorator {σ : Type} (ceiling : Nat)
    (refreshF : Entity σ → Entity σ)
    (op : Nat → Entity σ → List Event × Entity σ × Except TxError Unit) :
    EntityOrGetter σ → List Event × Entity σ × Except TxError Unit :=
  fun og => entry_transaction ceiling refreshF og op

/-- Modelled from the spec: a Subtask (sections 3, 4.2) — immutable once
constructed: a function reference plus its bound positional and keyword
arguments, captured at registration time and replayed unchanged on every
invocation.  The function takes the entity's state and the saved arguments
and returns the (possibly mutated) state together with the raw Python value
whose truthiness means "any mutation occurred". -/
structure Subtask (σ : Type) where
  name : String
  func : σ → List PyVal → List (String × PyVal) → σ × PyVal
  save_args : List PyVal
  save_kwargs : List (String × PyVal)

/-- The observable event of invoking one Subtask: its name and the bound
arguments it is invoked with. -/
def subEvent {σ : Type} (st : Subtask σ) : Event :=
  Event.sub st.name st.save_args st.save_kwargs

/-- Modelled from the spec: the convenience variant that wraps an arbitrary
free function plus its arguments as a Subtask without a named class
(section 4.2; `_FunctorSubtask` in the tests). -/
def FunctorSubtask {σ : Type} (f : σ → List PyVal → List (String × PyVal) → σ × PyVal)
    (args : List PyVal) (kwargs : List (String × PyVal)) : Subtask σ :=
  ⟨"functor", f, args, kwargs⟩

/-- Modelled from the spec: running an attached Subtask sequence in
attachment order (section 4.3): each Subtask is invoked with its captured
arguments on the state produced by its predecessors, its return value is
interpreted by truthiness, and `changed` is the OR across the sequence. -/
def runSubtasks {σ : Type} : List (Subtask σ) → σ → σ × Bool × List Event
  | [], s => (s, false, [])
  | st :: rest, s =>
    let r1 := st.func s st.save_args st.save_kwargs
    let r2 := runSubtasks rest r1.1
    (r2.1, truthy r1.2 || r2.2.1, subEvent st :: r2.2.2)

/-- The cumulative state after applying a Subtask sequence in order. -/
def applyAll {σ : Type} : List (Subtask σ) → σ → σ
  | [], s => s
  | st :: rest, s => applyAll rest (st.func s st.save_args st.save_kwargs).1

/-- Whether any Subtask of the sequence reports a change when the sequence is
run in order from state `s`. -/
def anyChanged {σ : Type} : List (Subtask σ) → σ → Bool
  | [], _ => false
  | st :: rest, s =>
    truthy (st.func s st.save_args st.save_kwargs).2 || anyChanged rest (st.func s st.save_args st.save_kwargs).1

/-- Modelled from the spec: the body that WrapperTask.execute runs under one
EntryTransaction cycle (section 4.3): run every attached Subtask in
attachment order on the same progressively mutated entity, and if any
Subtask reported a change attempt the Persist (update) exactly once, which
may fail with a conflict; a no-change pass skips Persist entirely.  The
Persist collaborator `updateF` takes the attempt index (modelling remote
state across retries) and the local state, and returns the persisted state
or an error. -/
def wrapperOp {σ : Type} (sts : List (Subtask σ))
    (updateF : Nat → σ → Except TxError σ) :
    Nat → Entity σ → List Event × Entity σ × Except TxError Unit :=
  fun attempt e =>
    let r := runSubtasks sts e.state
    if r.2.1 then
      match updateF attempt r.1 with
      | .ok s2 => (r.2.2 ++ [Event.update], ⟨e.key, s2⟩, .ok ())
      | .error err => (r.2.2 ++ [Event.update], ⟨e.key, r.1⟩, .error err)
    else (r.2.2, ⟨e.key, r.1⟩, .ok ())

/-- Modelled from the spec: a WrapperTask (sections 3, 4.3) — a name, a bound
EntityOrHandle, an ordered Subtask sequence, and the materialized entity
cache backing the lazy `wrapper` property (None until the handle has been
resolved). -/
structure WrapperTask (σ : Type) where
  name : String
  og : EntityOrGetter σ
  subtasks : List (Subtask σ)
  cached : Option (Entity σ)

/-- Modelled from the spec: a dynamically typed value handed to add_subtask —
either an actual Subtask or some other Python object. -/
inductive PyObj (σ : Type) : Type where
  | subtask (st : Subtask σ)
  | otherObj (v : PyVal)

/-- Modelled from the spec: add_subtask (section 4.3) — append-only; rejects
anything not conforming to the Subtask contract with a ValueError, and in
that case leaves the task unchanged and performs no remote or lock
activity. -/
def WrapperTask.add_subtask {σ : Type} (t : WrapperTask σ) :
    PyObj σ → Except TxError (WrapperTask σ)
  | .subtask st => .ok ⟨t.name, t.og, t.subtasks ++ [st], t.cached⟩
  | .otherObj _ => .error .valueError

/-- Modelled from the spec: the identity source WrapperTask.execute hands to
the EntryTransaction: the cached live entity if the handle was already
materialized, otherwise the original EntityOrHandle. -/
def WrapperTask.effectiveOg {σ : Type} (t : WrapperTask σ) : EntityOrGetter σ :=
  match t.cached with
  | some e => .entry e
  | none => t.og

/-- Modelled from the spec: the lazy `wrapper` property — accessing it
materializes the entity from its handle (one `get` event, outside any lock)
if not already materialized, caches it, and returns it; afterwards it is
served from the cache with no remote activity. -/
def WrapperTask.wrapperAccess {σ : Type} (t : WrapperTask σ) :
    Entity σ × WrapperTask σ × List Event :=
  match t.cached with
  | some e => (e, t, [])
  | none =>
    let m := t.og.materialize
    (m.2, ⟨t.name, t.og, t.subtasks, some m.2⟩, m.1)

/-- Modelled from the spec: WrapperTask.execute (section 4.3): fails
immediately with the no-subtasks error (no lock, no fetch, no update) when
nothing is attached; otherwise runs the Subtask sequence with
persist-if-changed under one EntryTransaction cycle against the bound
entity or handle, fetching inside the lock only if the entity was never
materialized, and on success caches the resulting entity. -/
def WrapperTask.execute {σ : Type} (ceiling : Nat) (refreshF : Entity σ → Entity σ)
    (updateF : Nat → σ → Except TxError σ) (t : WrapperTask σ) :
    List Event × Except TxError (Entity σ) × WrapperTask σ :=
  if t.subtasks.isEmpty then ([], .error .noSubtasks, t)
  else
    let r := entry_transaction ceiling refreshF t.effectiveOg (wrapperOp t.subtasks updateF)
    match r.2.2 with
    | .ok _ => (r.1, .ok r.2.1, ⟨t.name, t.og, t.subtasks, some r.2.1⟩)
    | .error err => (r.1, .error err, t)

/-- Modelled from the spec: the feed of a FeedTask (section 4.4) — either an
explicit collection of entities, or a lazy feed-fetcher; the fetcher is
modelled by the collection the remote system would return, which is not
examined until a feed-materializing operation runs. -/
inductive FeedSource (σ : Type) : Type where
  | explicitList (es : List (Entity σ))
  | fetcher (es : List (Entity σ))

/-- The feed contents once materialized. -/
def FeedSource.contents {σ : Type} : FeedSource σ → List (Entity σ)
  | .explicitList es => es
  | .fetcher es => es

/-- Modelled from the spec: a FeedTask (sections 3, 4.4) — a name, a feed,
and one Subtask list applied identically to every member via per-member
WrapperTasks. -/
structure FeedTask (σ : Type) where
  name : String
  feed : FeedSource σ
  common_subtasks : List (Subtask σ)

/-- Modelled from the spec: FeedTask construction (section 4.4) — fails
immediately with the empty-feed error when given an explicit empty
collection; a lazy fetcher is accepted without being evaluated. -/
def FeedTask.make {σ : Type} (name : String) (src : FeedSource σ) :
    Except TxError (FeedTask σ) :=
  match src with
  | .explicitList [] => .error .emptyFeed
  | _ => .ok ⟨name, src, []⟩

/-- Modelled from the spec: get_wrapper_task (section 4.4) — a greedy,
feed-materializing operation: it materializes the feed, raises the same
empty-feed error if the feed materializes to nothing, and otherwise returns
the per-entity WrapperTask (with the FeedTask's common subtasks) for the
entity identified by the key. -/
def FeedTask.get_wrapper_task {σ : Type} (ft : FeedTask σ) (key : String) :
    Except TxError (WrapperTask σ) :=
  match ft.feed.contents with
  | [] => .error .emptyFeed
  | es =>
    match es.find? (fun e => e.key == key) with
    | some e => .ok ⟨ft.name ++ "_" ++ key, .entry e, ft.common_subtasks, none⟩
    | none => .error (.otherErr "key not in feed")

/-- Modelled from the spec: FeedTask.execute (section 4.4, section 7) — runs
one WrapperTask per feed member independently; each member's failure is
captured in that member's result slot instead of being propagated, so the
aggregate call always completes structurally with one outcome per entity.
The Persist collaborator is keyed by entity identity so different members
may fail differently. -/
def FeedTask.execute {σ : Type} (ceiling : Nat) (refreshF : Entity σ → Entity σ)
    (updateF : String → Nat → σ → Except TxError σ) (ft : FeedTask σ) :
    List (String × Except TxError (Entity σ)) :=
  ft.feed.contents.map fun e =>
    let wt : WrapperTask σ := ⟨ft.name ++ "_" ++ e.key, .entry e, ft.common_subtasks, none⟩
    (e.key, (WrapperTask.execute ceiling refreshF (updateF e.key) wt).2.1)

/-- A caller-visible operation on one WrapperTask: accessing the lazy
`wrapper` property, or calling execute. -/
inductive WtOp : Type where
  | access
  | exec

/-- Running a sequence of wrapper-property accesses and execute calls
against a WrapperTask, accumulating the full event trace. -/
def runOps {σ : Type} (ceiling : Nat) (refreshF : Entity σ → Entity σ)
    (updateF : Nat → σ → Except TxError σ) :
    List WtOp → WrapperTask σ → List Event × WrapperTask σ
  | [], t => ([], t)
  | WtOp.access :: rest, t =>
    let a := t.wrapperAccess
    let r := runOps ceiling refreshF updateF rest a.2.1
    (a.2.2 ++ r.1, r.2)
  | WtOp.exec :: rest, t =>
    let x := WrapperTask.execute ceiling refreshF updateF t
    let r := runOps ceiling refreshF updateF rest x.2.2
    (x.1 ++ r.1, r.2)

/-- A Persist collaborator that always succeeds, returning the state computed
by `u` from the attempt index and the pushed state. -/
def okPersist {σ : Type} (u : Nat → σ → σ) : Nat → σ → Except TxError σ :=
  fun n s => .ok (u n s)

/-- A Persist collaborator that raises a conflict on the first `C` attempts
and then succeeds. -/
def conflictPersist {σ : Type} (C : Nat) (u : Nat → σ → σ) : Nat → σ → Except TxError σ :=
  fun n s => if n < C then .error .conflict else .ok (u n s)

/-- A generic decorated operation that raises a conflict on the first `C`
invocations and then succeeds, leaving the entity untouched; each invocation
is one `invoke` event. -/
def opConflict {σ : Type} (C : Nat) :
    Nat → Entity σ → List Event × Entity σ × Except TxError Unit :=
  fun a e => ([Event.invoke], e, if a < C then .error .conflict else .ok ())

/-- The event trace of an operation block re-run `d` times after a refresh:
the block, then `d` repetitions of (refresh, block). -/
def attemptBlocks (blk : List Event) : Nat → List Event
  | 0 => blk
  | d + 1 => blk ++ Event.refresh :: attemptBlocks blk d

/-- The entity produced by a retry chain of `d` conflicts followed by a
success: each conflicting attempt's mutated entity is refreshed before the
next attempt, and the successful attempt's entity is the result. -/
def chainEntity {σ : Type}
    (op : Nat → Entity σ → List Event × Entity σ × Except TxError Unit)
    (refreshF : Entity σ → Entity σ) : Nat → Nat → Entity σ → Entity σ
  | 0, a, e => (op a e).2.1
  | d + 1, a, e => chainEntity op refreshF d (a + 1) (refreshF (op a e).2.1)

/-- The entity a conflict-free WrapperTask execution commits: the
materialized entity's state after all subtasks, persisted through `u` when
any subtask reported a change. -/
def finalEntity {σ : Type} (t : WrapperTask σ) (u : Nat → σ → σ) : Entity σ :=
  ⟨t.effectiveOg.materialize.2.key,
   if anyChanged t.subtasks t.effectiveOg.materialize.2.state
   then u 0 (applyAll t.subtasks t.effectiveOg.materialize.2.state)
   else applyAll t.subtasks t.effectiveOg.materialize.2.state⟩

/-- Whether the task can no longer trigger a Fetch: its entity is already
materialized, or it was bound to a live entity in the first place. -/
def fetchDone {σ : Type} (t : WrapperTask σ) : Bool :=
  match t.cached, t.og with
  | some _, _ => true
  | none, .entry _ => true
  | none, .getter _ _ => false

/-- A sample subtask over Nat state: increments the state and reports a
change. -/
def incSub : Subtask Nat :=
  ⟨"inc", fun s _ _ => (s + 1, PyVal.bool true), [], []⟩

/-- A sample subtask over Nat state: leaves the state alone and reports no
change. -/
def noopSub : Subtask Nat :=
  ⟨"noop", fun s _ _ => (s, PyVal.bool false), [], []⟩

/-- A sample subtask over Nat state: doubles the state and reports a
change, carrying distinctive bound arguments. -/
def dblSub : Subtask Nat :=
  ⟨"dbl", fun s _ _ => (s * 2, PyVal.int 1), [PyVal.str "arg1"], [("k4", PyVal.str "kwarg4")]⟩

@[simp]
lemma countEv_nil (p : Event → Bool) : countEv p [] = 0 := rfl

@[simp]
lemma countEv_cons (p : Event → Bool) (e : Event) (l : List Event) :
    countEv p (e :: l) = (if p e then 1 else 0) + countEv p l := rfl

@[simp]
lemma countEv_append (p : Event → Bool) (l1 l2 : List Event) :
    countEv p (l1 ++ l2) = countEv p l1 + countEv p l2 := by
  induction l1 with
  | nil => simp
  | cons e rest ih => simp [ih]; omega

@[simp]
lemma countEv_map_subEvent {σ : Type} (p : Event → Bool)
    (h : ∀ n a k, p (Event.sub n a k) = false) (sts : List (Subtask σ)) :
    countEv p (sts.map subEvent) = 0 := by
  induction sts with
  | nil => rfl
  | cons st rest ih => simp [subEvent, h, ih]

/-- Running the subtask sequence computes the cumulative state, the OR of
the per-subtask change reports, and one `sub` event per subtask in
attachment order, each carrying the captured arguments. -/
lemma runSubtasks_eq {σ : Type} :
    ∀ (sts : List (Subtask σ)) (s : σ),
      runSubtasks sts s = (applyAll sts s, anyChanged sts s, sts.map subEvent)
  | [], _ => rfl
  | st :: rest, s => by
    have ih := runSubtasks_eq rest (st.func s st.save_args st.save_kwargs).1
    simp [runSubtasks, applyAll, anyChanged, ih]

/-- If the first invocation of the operation succeeds, the retry loop is
just that invocation, whatever the fuel. -/
lemma txRetryLoop_ok {σ : Type}
    (op : Nat → Entity σ → List Event × Entity σ × Except TxError Unit)
    (refreshF : Entity σ → Entity σ) (fuel a : Nat) (e : Entity σ)
    (h : (op a e).2.2 = .ok ()) :
    txRetryLoop op refreshF fuel a e = op a e := by
  cases fuel with
  | zero => rfl
  | succ n => simp only [txRetryLoop, h]

/-- The general shape of a conflict-retry run: if the operation emits a
fixed event block, conflicts on attempts `a + k` for `k < d` and succeeds on
attempt `a + d`, and the loop has at least `d` retries of fuel left, then
the loop emits the block `d + 1` times separated by refreshes, threads the
refresh chain through the attempts, and succeeds. -/
lemma txRetryLoop_conflicts {σ : Type}
    (op : Nat → Entity σ → List Event × Entity σ × Except TxError Unit)
    (refreshF : Entity σ → Entity σ) (blk : List Event)
    (hop : ∀ a e, (op a e).1 = blk) :
    ∀ (d fuel a : Nat) (e : Entity σ), d ≤ fuel →
      (∀ k e', k < d → (op (a + k) e').2.2 = .error .conflict) →
      (∀ e', (op (a + d) e').2.2 = .ok ()) →
      txRetryLoop op refreshF fuel a e
        = (attemptBlocks blk d, chainEntity op refreshF d a e, .ok ())
  | 0, fuel, a, e, _, _, hok => by
    have h1 := hop a e
    have h2 := hok e
    simp only [Nat.add_zero] at h2
    have := txRetryLoop_ok op refreshF fuel a e h2
    rw [this, attemptBlocks, chainEntity]
    exact Prod.ext h1 (Prod.ext rfl h2)
  | d + 1, fuel, a, e, hd, hconf, hok => by
    cases fuel with
    | zero => omega
    | succ f =>
      have hc0 : (op a e).2.2 = .error .conflict := by
        have := hconf 0 e (Nat.succ_pos d)
        simpa using this
      have ih := txRetryLoop_conflicts op refreshF blk hop d f (a + 1)
        (refreshF (op a e).2.1) (by omega)
        (fun k e' hk => by
          have := hconf (k + 1) e' (by omega)
          simpa [Nat.add_assoc, Nat.add_comm 1 k] using this)
        (fun e' => by
          have := hok e'
          simpa [Nat.add_assoc, Nat.add_comm 1 d] using this)
      simp only [txRetryLoop, hc0, ih, attemptBlocks, chainEntity, hop a e]

/-- The refresh count of a `d`-retry trace whose block contains no refresh
events is exactly `d`. -/
lemma countEv_refresh_attemptBlocks (blk : List Event)
    (h : countEv Event.isRefresh blk = 0) :
    ∀ d, countEv Event.isRefresh (attemptBlocks blk d) = d
  | 0 => h
  | d + 1 => by
    simp [attemptBlocks, h, countEv_refresh_attemptBlocks blk h d, Event.isRefresh]
    omega

/-- One WrapperTask attempt under an always-successful Persist: the subtask
events in order, one update event exactly when some subtask reported a
change, and success. -/
lemma wrapperOp_okPersist {σ : Type} (sts : List (Subtask σ)) (u : Nat → σ → σ)
    (a : Nat) (e : Entity σ) :
    wrapperOp sts (okPersist u) a e
      = (sts.map subEvent ++ (if anyChanged sts e.state then [Event.update] else []),
         ⟨e.key, if anyChanged sts e.state then u a (applyAll sts e.state)
                 else applyAll sts e.state⟩,
         .ok ()) := by
  unfold wrapperOp okPersist
  rw [runSubtasks_eq]
  by_cases h : anyChanged sts e.state <;> simp [h]

/-- One WrapperTask attempt under a Persist that conflicts on the first `C`
attempts: the subtask events in order, an update attempt exactly when some
subtask reported a change, and a conflict error precisely when an update was
attempted before attempt `C`. -/
lemma wrapperOp_conflictPersist {σ : Type} (sts : List (Subtask σ)) (C : Nat)
    (u : Nat → σ → σ) (a : Nat) (e : Entity σ) :
    wrapperOp sts (conflictPersist C u) a e
      = (sts.map subEvent ++ (if anyChanged sts e.state then [Event.update] else []),
         ⟨e.key, if anyChanged sts e.state then
                   (if a < C then applyAll sts e.state else u a (applyAll sts e.state))
                 else applyAll sts e.state⟩,
         if anyChanged sts e.state then
           (if a < C then .error TxError.conflict else .ok ())
         else .ok ()) := by
  unfold wrapperOp conflictPersist
  rw [runSubtasks_eq]
  by_cases h : anyChanged sts e.state
  · by_cases h2 : a < C <;> simp [h, h2]
  · simp [h]

/-- A conflict-free successful WrapperTask execution in full: lock on the
authoritative key, fetch only if the entity was never materialized, every
subtask in attachment order with its captured arguments, one persist exactly
when a change was reported, unlock; the committed entity is cached on the
task. -/
lemma execute_okPersist {σ : Type} (ceiling : Nat) (refreshF : Entity σ → Entity σ)
    (u : Nat → σ → σ) (t : WrapperTask σ) (hne : t.subtasks ≠ []) :
    WrapperTask.execute ceiling refreshF (okPersist u) t
      = (Event.lock t.effectiveOg.lockKey
           :: (t.effectiveOg.materialize.1
               ++ ((t.subtasks.map subEvent
                    ++ (if anyChanged t.subtasks t.effectiveOg.materialize.2.state
                        then [Event.update] else []))
                   ++ [Event.unlock])),
         Except.ok (finalEntity t u),
         ⟨t.name, t.og, t.subtasks, some (finalEntity t u)⟩) := by
  have hemp : t.subtasks.isEmpty = false := by
    cases h : t.subtasks with
    | nil => exact absurd h hne
    | cons a l => rfl
  have hok : (wrapperOp t.subtasks (okPersist u) 0 t.effectiveOg.materialize.2).2.2
      = .ok () := by
    rw [wrapperOp_okPersist]
  unfold WrapperTask.execute entry_transaction
  rw [hemp]
  simp only [Bool.false_eq_true, if_false,
    txRetryLoop_ok _ refreshF ceiling 0 _ hok, wrapperOp_okPersist, finalEntity]
  simp [List.append_assoc]

/-- A WrapperTask execution whose Persist conflicts on the first `C` of at
most `ceiling` attempts, with every attempt reporting a change: the full
subtask block (in attachment order, with captured arguments) and the persist
attempt are re-run `C + 1` times, separated by refreshes, all inside one
lock/unlock pair. -/
lemma execute_conflictPersist_log {σ : Type} (C ceiling : Nat) (hCc : C ≤ ceiling)
    (refreshF : Entity σ → Entity σ) (u : Nat → σ → σ) (t : WrapperTask σ)
    (hne : t.subtasks ≠ []) (hch : ∀ s, anyChanged t.subtasks s = true) :
    (WrapperTask.execute ceiling refreshF (conflictPersist C u) t).1
      = Event.lock t.effectiveOg.lockKey
          :: (t.effectiveOg.materialize.1
              ++ (attemptBlocks (t.subtasks.map subEvent ++ [Event.update]) C
                  ++ [Event.unlock])) := by
  have hemp : t.subtasks.isEmpty = false := by
    cases h : t.subtasks with
    | nil => exact absurd h hne
    | cons a l => rfl
  have hop : ∀ a e, (wrapperOp t.subtasks (conflictPersist C u) a e).1
      = t.subtasks.map subEvent ++ [Event.update] := by
    intro a e
    rw [wrapperOp_conflictPersist]
    simp [hch]
  have hconf : ∀ k e', k < C →
      (wrapperOp t.subtasks (conflictPersist C u) (0 + k) e').2.2
        = .error .conflict := by
    intro k e' hk
    rw [wrapperOp_conflictPersist]
    simp [hch, Nat.zero_add, hk]
  have hok : ∀ e', (wrapperOp t.subtasks (conflictPersist C u) (0 + C) e').2.2
      = .ok () := by
    intro e'
    rw [wrapperOp_conflictPersist]
    simp [hch, Nat.zero_add]
  have key := txRetryLoop_conflicts (wrapperOp t.subtasks (conflictPersist C u))
    refreshF (t.subtasks.map subEvent ++ [Event.update]) hop C ceiling 0
    t.effectiveOg.materialize.2 hCc hconf hok
  unfold WrapperTask.execute entry_transaction
  rw [hemp]
  simp only [Bool.false_eq_true, if_false, key]
  simp [List.append_assoc]

@[simp]
lemma filter_isSub_map_subEvent {σ : Type} (sts : List (Subtask σ)) :
    (sts.map subEvent).filter Event.isSub = sts.map subEvent := by
  induction sts with
  | nil => rfl
  | cons st rest ih => simp [subEvent, Event.isSub, ih]

/-- The cumulative-state law: the i-th subtask of the sequence is applied to
the state produced by the first i subtasks. -/
lemma applyAll_take_succ {σ : Type} :
    ∀ (sts : List (Subtask σ)) (s : σ) (i : Nat) (h : i < sts.length),
      applyAll (sts.take (i + 1)) s
        = ((sts.get ⟨i, h⟩).func (applyAll (sts.take i) s)
            (sts.get ⟨i, h⟩).save_args (sts.get ⟨i, h⟩).save_kwargs).1
  | [], _, i, h => absurd h (by simp)
  | st :: rest, s, 0, _ => by simp [applyAll]
  | st :: rest, s, i + 1, h => by
    have ih := applyAll_take_succ rest (st.func s st.save_args st.save_kwargs).1 i
      (by simpa using h)
    simpa [applyAll, List.take_succ_cons] using ih

/-- If the operation itself performs no fetch, the retry loop performs no
fetch either (refreshes are not fetches). -/
lemma txRetryLoop_no_get {σ : Type}
    (op : Nat → Entity σ → List Event × Entity σ × Except TxError Unit)
    (refreshF : Entity σ → Entity σ)
    (hop : ∀ a e, Event.get ∉ (op a e).1) :
    ∀ (fuel a : Nat) (e : Entity σ), Event.get ∉ (txRetryLoop op refreshF fuel a e).1
  | 0, a, e => hop a e
  | fuel + 1, a, e => by
    have ih := txRetryLoop_no_get op refreshF hop fuel (a + 1) (refreshF (op a e).2.1)
    simp only [txRetryLoop]
    split
    · exact hop a e
    · intro hmem
      rcases List.mem_append.mp hmem with h1 | h2
      · exact hop a e h1
      · rcases List.mem_cons.mp h2 with h3 | h4
        · exact Event.noConfusion h3
        · exact ih h4
    · exact hop a e

/-- Accessing the wrapper property of a task whose entity is already
materialized (or live) performs no events and keeps the task fetch-done. -/
lemma wrapperAccess_done {σ : Type} (t : WrapperTask σ) (h : fetchDone t = true) :
    t.wrapperAccess.2.2 = [] ∧ fetchDone t.wrapperAccess.2.1 = true := by
  cases hc : t.cached with
  | some e => simp [WrapperTask.wrapperAccess, hc, fetchDone]
  | none =>
    cases ho : t.og with
    | entry e =>
      simp [WrapperTask.wrapperAccess, hc, ho, EntityOrGetter.materialize, fetchDone]
    | getter k fe => simp [fetchDone, hc, ho] at h

/-- Accessing the wrapper property of a never-materialized handle-bound task
performs exactly one fetch (and no lock), after which the task is
fetch-done. -/
lemma wrapperAccess_not_done {σ : Type} (t : WrapperTask σ)
    (h : fetchDone t = false) :
    t.wrapperAccess.2.2 = [Event.get] ∧ fetchDone t.wrapperAccess.2.1 = true := by
  cases hc : t.cached with
  | some e => simp [fetchDone, hc] at h
  | none =>
    cases ho : t.og with
    | entry e => simp [fetchDone, hc, ho] at h
    | getter k fe =>
      simp [WrapperTask.wrapperAccess, hc, ho, EntityOrGetter.materialize, fetchDone]

/-- Fetch accounting of one conflict-free execute call: no fetch if there is
nothing to run or if the entity is already materialized, exactly one fetch
otherwise; afterwards the task is fetch-done unless nothing ran. -/
lemma execute_okPersist_gets {σ : Type} (ceiling : Nat)
    (refreshF : Entity σ → Entity σ) (u : Nat → σ → σ) (t : WrapperTask σ) :
    countEv Event.isGet (WrapperTask.execute ceiling refreshF (okPersist u) t).1
      = (if t.subtasks.isEmpty then 0 else if fetchDone t then 0 else 1)
    ∧ fetchDone (WrapperTask.execute ceiling refreshF (okPersist u) t).2.2
      = (fetchDone t || !t.subtasks.isEmpty) := by
  by_cases hemp : t.subtasks.isEmpty
  · unfold WrapperTask.execute
    simp [hemp]
  · have hne : t.subtasks ≠ [] := by
      cases h : t.subtasks with
      | nil => rw [h] at hemp; exact absurd rfl hemp
      | cons a l => exact List.cons_ne_nil a l
    rw [execute_okPersist ceiling refreshF u t hne]
    constructor
    · have hupd : ∀ (c : Prop) (h : Decidable c),
          countEv Event.isGet (if c then [Event.update] else []) = 0 := by
        intro c h
        split <;> simp [Event.isGet]
      cases hc : t.cached with
      | some e =>
        simp [WrapperTask.effectiveOg, hc, EntityOrGetter.materialize, fetchDone,
          Event.isGet, hemp, hupd, countEv_map_subEvent]
      | none =>
        cases ho : t.og with
        | entry e =>
          simp [WrapperTask.effectiveOg, hc, ho, EntityOrGetter.materialize,
            fetchDone, Event.isGet, hemp, hupd, countEv_map_subEvent]
        | getter k fe =>
          simp [WrapperTask.effectiveOg, hc, ho, EntityOrGetter.materialize,
            fetchDone, Event.isGet, hemp, hupd, countEv_map_subEvent]
    · simp [fetchDone, hemp]

/-- At most one fetch ever happens across any sequence of wrapper-property
accesses and conflict-free execute calls, and none at all once the task is
fetch-done. -/
lemma runOps_gets {σ : Type} (ceiling : Nat) (refreshF : Entity σ → Entity σ)
    (u : Nat → σ → σ) :
    ∀ (ops : List WtOp) (t : WrapperTask σ),
      (fetchDone t = true →
        countEv Event.isGet (runOps ceiling refreshF (okPersist u) ops t).1 = 0)
      ∧ countEv Event.isGet (runOps ceiling refreshF (okPersist u) ops t).1 ≤ 1
  | [], t => by simp [runOps]
  | WtOp.access :: rest, t => by
    have ihfun := runOps_gets ceiling refreshF u rest
    by_cases hd : fetchDone t = true
    · obtain ⟨hev, hd'⟩ := wrapperAccess_done t hd
      have ih := ihfun t.wrapperAccess.2.1
      simp [runOps, hev, ih.1 hd', ih.2]
    · obtain ⟨hev, hd'⟩ := wrapperAccess_not_done t (by simpa using hd)
      have ih := ihfun t.wrapperAccess.2.1
      constructor
      · intro h
        exact absurd h hd
      · simp [runOps, hev, Event.isGet, ih.1 hd']
  | WtOp.exec :: rest, t => by
    have ihfun := runOps_gets ceiling refreshF u rest
    obtain ⟨hcount, hdone⟩ := execute_okPersist_gets ceiling refreshF u t
    have ih := ihfun (WrapperTask.execute ceiling refreshF (okPersist u) t).2.2
    by_cases hd : fetchDone t = true
    · have h0 : countEv Event.isGet
          (WrapperTask.execute ceiling refreshF (okPersist u) t).1 = 0 := by
        rw [hcount, hd]
        by_cases hemp : t.subtasks.isEmpty <;> simp [hemp]
      have hafter : fetchDone (WrapperTask.execute ceiling refreshF (okPersist u) t).2.2
          = true := by
        rw [hdone, hd, Bool.true_or]
      simp [runOps, h0, ih.1 hafter, ih.2]
    · have hdf : fetchDone t = false := by simpa using hd
      by_cases hemp : t.subtasks.isEmpty
      · have h0 : countEv Event.isGet
            (WrapperTask.execute ceiling refreshF (okPersist u) t).1 = 0 := by
          rw [hcount]
          simp [hemp]
        have hafter : fetchDone (WrapperTask.execute ceiling refreshF (okPersist u) t).2.2
            = false := by
          rw [hdone, hdf, hemp]
          rfl
        constructor
        · intro h
          exact absurd h hd
        · simp only [runOps, countEv_append, h0, Nat.zero_add]
          exact ih.2
      · have h1 : countEv Event.isGet
            (WrapperTask.execute ceiling refreshF (okPersist u) t).1 = 1 := by
          rw [hcount, hdf]
          simp [hemp]
        have hafter : fetchDone (WrapperTask.execute ceiling refreshF (okPersist u) t).2.2
            = true := by
          rw [hdone]
          simp [hemp]
        constructor
        · intro h
          exact absurd h hd
        · simp [runOps, h1, ih.1 hafter]

lemma countEv_materialize {σ : Type} (p : Event → Bool) (h : p Event.get = false)
    (og : EntityOrGetter σ) : countEv p og.materialize.1 = 0 := by
  cases og <;> simp [EntityOrGetter.materialize, h]

/-- Update accounting of a conflict-free execute: exactly one persist if any
subtask reported a change, none otherwise. -/
lemma execute_okPersist_updates {σ : Type} (ceiling : Nat)
    (refreshF : Entity σ → Entity σ) (u : Nat → σ → σ) (t : WrapperTask σ)
    (hne : t.subtasks ≠ []) :
    countEv Event.isUpdate (WrapperTask.execute ceiling refreshF (okPersist u) t).1
      = (if anyChanged t.subtasks t.effectiveOg.materialize.2.state then 1 else 0) := by
  rw [execute_okPersist ceiling refreshF u t hne]
  by_cases hch : anyChanged t.subtasks t.effectiveOg.materialize.2.state <;>
    simp [hch, Event.isUpdate, countEv_map_subEvent,
      countEv_materialize Event.isUpdate rfl]

/-- The subtask events of a conflict-free execute are exactly the attached
sequence's events, in attachment order. -/
lemma execute_okPersist_subs {σ : Type} (ceiling : Nat)
    (refreshF : Entity σ → Entity σ) (u : Nat → σ → σ) (t : WrapperTask σ)
    (hne : t.subtasks ≠ []) :
    (WrapperTask.execute ceiling refreshF (okPersist u) t).1.filter Event.isSub
      = t.subtasks.map subEvent := by
  rw [execute_okPersist ceiling refreshF u t hne]
  have hifupd : ∀ (c : Prop) (h : Decidable c),
      (if c then [Event.update] else []).filter Event.isSub = [] := by
    intro c h
    split <;> rfl
  cases hog : t.effectiveOg <;>
    simp [EntityOrGetter.materialize, Event.isSub, List.filter_append, hifupd]

/-- C1 (amended): a WrapperTask.execute whose Persist attempt does not
conflict behaves as claimed — if no attached Subtask reports a change,
Persist is never called (the remote system sees no update at all), and if
at least one reports a change, Persist is called exactly once, after all
Subtasks have run and before the lock is released; the call completes
successfully with the committed entity.  (The unamended claim fails: a conflicted-then-successful
execute calls the Persist capability once per attempt, as the separate
concrete counterexample shows.) -/
theorem claimC1_persist_iff_changed {σ : Type} (name : String)
    (og : EntityOrGetter σ) (sts : List (Subtask σ)) (ceiling : Nat)
    (refreshF : Entity σ → Entity σ) (u : Nat → σ → σ) (hne : sts ≠ []) :
    countEv Event.isUpdate
        (WrapperTask.execute ceiling refreshF (okPersist u) ⟨name, og, sts, none⟩).1
      = (if anyChanged sts og.materialize.2.state then 1 else 0)
    ∧ (WrapperTask.execute ceiling refreshF (okPersist u) ⟨name, og, sts, none⟩).1
      = Event.lock og.lockKey
          :: (og.materialize.1
              ++ ((sts.map subEvent
                   ++ (if anyChanged sts og.materialize.2.state
                       then [Event.update] else []))
                  ++ [Event.unlock]))
    ∧ (WrapperTask.execute ceiling refreshF (okPersist u)
        ⟨name, og, sts, none⟩).2.1
      = Except.ok (finalEntity ⟨name, og, sts, none⟩ u) := by
  refine ⟨?_, ?_, ?_⟩
  · exact execute_okPersist_updates ceiling refreshF u ⟨name, og, sts, none⟩ hne
  · have h := execute_okPersist ceiling refreshF u ⟨name, og, sts, none⟩ hne
    exact (congrArg Prod.fst h).trans rfl
  · have h := execute_okPersist ceiling refreshF u ⟨name, og, sts, none⟩ hne
    exact (congrArg (fun p => p.2.1) h).trans rfl

/-- Witness for C1: one no-change subtask never persists; a changing
sequence persists exactly once. -/
theorem claimC1_witness :
    countEv Event.isUpdate
        (WrapperTask.execute 60 (fun e => e) (okPersist (fun _ s => s))
          ⟨"tx1", EntityOrGetter.getter "u1" ⟨"u1", (7:Nat)⟩, [noopSub], none⟩).1 = 0
    ∧ countEv Event.isUpdate
        (WrapperTask.execute 60 (fun e => e) (okPersist (fun _ s => s))
          ⟨"tx1", EntityOrGetter.getter "u1" ⟨"u1", (7:Nat)⟩,
            [noopSub, incSub, noopSub], none⟩).1 = 1 := by
  have h1 := (claimC1_persist_iff_changed "tx1"
    (EntityOrGetter.getter "u1" (⟨"u1", (7:Nat)⟩ : Entity Nat)) [noopSub] 60
    (fun e => e) (fun _ s => s) (by simp)).1
  have h2 := (claimC1_persist_iff_changed "tx1"
    (EntityOrGetter.getter "u1" (⟨"u1", (7:Nat)⟩ : Entity Nat))
    [noopSub, incSub, noopSub] 60 (fun e => e) (fun _ s => s) (by simp)).1
  constructor
  · rw [h1]
    rfl
  · rw [h2]
    rfl

/-- Counterexample to C1 as stated: an execute() that hits one conflict and
then succeeds completes successfully but calls the Persist capability twice,
not exactly once. -/
theorem claimC1_counterexample :
    (WrapperTask.execute 1 (fun e => e)
        (fun n s => if n = 0 then Except.error TxError.conflict else Except.ok s)
        ⟨"t", EntityOrGetter.entry ⟨"A", (0:Nat)⟩, [incSub], none⟩).2.1
      = Except.ok (⟨"A", 2⟩ : Entity Nat)
    ∧ countEv Event.isUpdate
        (WrapperTask.execute 1 (fun e => e)
          (fun n s => if n = 0 then Except.error TxError.conflict else Except.ok s)
          ⟨"t", EntityOrGetter.entry ⟨"A", (0:Nat)⟩, [incSub], none⟩).1 = 2
    ∧ (2 : Nat) ≠ 1 := by
  refine ⟨rfl, rfl, by decide⟩

/-- C2: for every conflict count C strictly below the retry ceiling, an
entry_transaction-decorated operation that raises a conflict C times and
then succeeds performs exactly C Refresh calls and returns the successful
result, with the event sequence: lock, fetch (only if given a getter —
`og.materialize.1` is `[get]` for a getter and `[]` for a live entity),
invoke, then C repetitions of (refresh, re-invoke), then unlock. -/
theorem claimC2_conflict_retry_sequence {σ : Type} (C ceiling : Nat)
    (hC : C < ceiling) (og : EntityOrGetter σ) (refreshF : Entity σ → Entity σ) :
    entry_transaction ceiling refreshF og (opConflict C)
      = (Event.lock og.lockKey
           :: (og.materialize.1 ++ (attemptBlocks [Event.invoke] C ++ [Event.unlock])),
         chainEntity (opConflict C) refreshF C 0 og.materialize.2, Except.ok ())
    ∧ countEv Event.isRefresh
        (entry_transaction ceiling refreshF og (opConflict C)).1 = C := by
  have hop : ∀ (a : Nat) (e : Entity σ), (opConflict C a e).1 = [Event.invoke] :=
    fun a e => rfl
  have hconf : ∀ (k : Nat) (e' : Entity σ), k < C →
      (opConflict C (0 + k) e').2.2 = .error .conflict := by
    intro k e' hk
    simp [opConflict, Nat.zero_add, hk]
  have hok : ∀ e' : Entity σ, (opConflict C (0 + C) e').2.2 = .ok () := by
    intro e'
    simp [opConflict]
  have key := txRetryLoop_conflicts (opConflict C) refreshF [Event.invoke] hop C
    ceiling 0 og.materialize.2 (le_of_lt hC) hconf hok
  constructor
  · unfold entry_transaction
    simp only [key]
    simp [List.append_assoc]
  · unfold entry_transaction
    simp only [key]
    have hblk : countEv Event.isRefresh [Event.invoke] = 0 := rfl
    have hcnt := countEv_refresh_attemptBlocks [Event.invoke] hblk C
    simp [Event.isRefresh, hcnt, countEv_materialize Event.isRefresh rfl og]

/-- Witness for C2 at C = 2 conflicts with ceiling 60, against a getter. -/
theorem claimC2_witness :
    entry_transaction 60 (fun e => e)
        (EntityOrGetter.getter "uuid" (⟨"uuid", (5:Nat)⟩ : Entity Nat)) (opConflict 2)
      = (Event.lock "uuid"
           :: ([Event.get]
               ++ ([Event.invoke, Event.refresh, Event.invoke, Event.refresh,
                    Event.invoke] ++ [Event.unlock])),
         ⟨"uuid", 5⟩, Except.ok ())
    ∧ countEv Event.isRefresh
        (entry_transaction 60 (fun e => e)
          (EntityOrGetter.getter "uuid" (⟨"uuid", (5:Nat)⟩ : Entity Nat))
          (opConflict 2)).1 = 2 := by
  have h := claimC2_conflict_retry_sequence 2 60 (by decide)
    (EntityOrGetter.getter "uuid" (⟨"uuid", (5:Nat)⟩ : Entity Nat)) (fun e => e)
  exact ⟨h.1.trans rfl, h.2⟩

/-- C3: the lock key of an entry_transaction invocation is the live entity's
own key, or the getter's registered key; the lock event is the very first
event of every call (so the key is resolved and the lock acquired before any
fetch); for a getter the fetch is the event immediately after the lock; for
a live entity no fetch ever occurs (given the operation itself performs
none).  The decorator itself builds a callable without running any of the
lock machinery — events arise only from applying it. -/
theorem claimC3_lock_key_and_order {σ : Type} (ceiling : Nat)
    (refreshF : Entity σ → Entity σ)
    (op : Nat → Entity σ → List Event × Entity σ × Except TxError Unit) :
    (∀ og : EntityOrGetter σ,
        (entry_transaction_decorator ceiling refreshF op og).1.head?
          = some (Event.lock og.lockKey))
    ∧ (∀ e : Entity σ, (EntityOrGetter.entry e).lockKey = e.key)
    ∧ (∀ (k : String) (fe : Entity σ), (EntityOrGetter.getter k fe).lockKey = k)
    ∧ (∀ (k : String) (fe : Entity σ),
        (entry_transaction_decorator ceiling refreshF op
          (EntityOrGetter.getter k fe)).1.take 2 = [Event.lock k, Event.get])
    ∧ (∀ e : Entity σ, (∀ (a : Nat) (e' : Entity σ), Event.get ∉ (op a e').1) →
        Event.get ∉ (entry_transaction_decorator ceiling refreshF op
          (EntityOrGetter.entry e)).1) := by
  refine ⟨fun og => rfl, fun e => rfl, fun k fe => rfl, fun k fe => rfl, ?_⟩
  intro e hop hmem
  have hr := txRetryLoop_no_get op refreshF hop ceiling 0 e
  simp only [entry_transaction_decorator, entry_transaction,
    EntityOrGetter.materialize, List.nil_append, List.mem_cons,
    List.mem_append] at hmem
  rcases hmem with h1 | h2 | h3
  · exact Event.noConfusion h1
  · exact hr h2
  · simp at h3

/-- Witness for C3: a live entity locks on its own uuid with no fetch; a
getter locks on its registered key and fetches right after. -/
theorem claimC3_witness :
    (entry_transaction_decorator 1 (fun e => e) (opConflict 0)
        (EntityOrGetter.entry (⟨"uuidA", (0:Nat)⟩ : Entity Nat))).1.head?
      = some (Event.lock "uuidA")
    ∧ (entry_transaction_decorator 1 (fun e => e) (opConflict 0)
        (EntityOrGetter.getter "gk" (⟨"real", (0:Nat)⟩ : Entity Nat))).1.take 2
      = [Event.lock "gk", Event.get]
    ∧ Event.get ∉ (entry_transaction_decorator 1 (fun e => e) (opConflict 0)
        (EntityOrGetter.entry (⟨"uuidA", (0:Nat)⟩ : Entity Nat))).1 := by
  obtain ⟨h1, h2, h3, h4, h5⟩ :=
    claimC3_lock_key_and_order 1 (fun e => (e : Entity Nat)) (opConflict 0)
  exact ⟨h1 _, h4 "gk" _, h5 _ (fun a e' => by simp [opConflict])⟩

/-- C4: within one execute attempt, Subtasks run strictly in attachment
order (the event list is the attached sequence's events, each carrying the
arguments captured at registration), each Subtask receives the cumulative
state of its predecessors in the same attempt, and on every conflict-retry
attempt the full Subtask sequence re-runs against the freshly refreshed
entity with the same captured arguments. -/
theorem claimC4_order_cumulative_retry {σ : Type} (sts : List (Subtask σ)) (s : σ) :
    (runSubtasks sts s = (applyAll sts s, anyChanged sts s, sts.map subEvent))
    ∧ (∀ (i : Nat) (h : i < sts.length),
        applyAll (sts.take (i + 1)) s
          = ((sts.get ⟨i, h⟩).func (applyAll (sts.take i) s)
              (sts.get ⟨i, h⟩).save_args (sts.get ⟨i, h⟩).save_kwargs).1)
    ∧ (∀ (C ceiling : Nat), C ≤ ceiling →
        ∀ (name : String) (og : EntityOrGetter σ) (refreshF : Entity σ → Entity σ)
          (u : Nat → σ → σ), sts ≠ [] → (∀ s', anyChanged sts s' = true) →
        (WrapperTask.execute ceiling refreshF (conflictPersist C u)
            ⟨name, og, sts, none⟩).1
          = Event.lock og.lockKey
              :: (og.materialize.1
                  ++ (attemptBlocks (sts.map subEvent ++ [Event.update]) C
                      ++ [Event.unlock]))) := by
  refine ⟨runSubtasks_eq sts s, applyAll_take_succ sts s, ?_⟩
  intro C ceiling hCc name og refreshF u hne hch
  have h := execute_conflictPersist_log C ceiling hCc refreshF u
    ⟨name, og, sts, none⟩ hne hch
  exact h.trans rfl

/-- Witness for C4: two subtasks over Nat state, one conflict with ceiling
2: both subtasks run in order in each of the two attempts, separated by a
refresh, with their captured arguments replayed. -/
theorem claimC4_witness :
    (runSubtasks [incSub, dblSub] 3
      = (8, true, [subEvent incSub, subEvent dblSub]))
    ∧ (applyAll ([incSub, dblSub].take 2) 3
        = (([incSub, dblSub].get ⟨1, by decide⟩).func
            (applyAll ([incSub, dblSub].take 1) 3)
            ([incSub, dblSub].get ⟨1, by decide⟩).save_args
            ([incSub, dblSub].get ⟨1, by decide⟩).save_kwargs).1)
    ∧ (WrapperTask.execute 2 (fun _ => ⟨"E", 3⟩) (conflictPersist 1 (fun _ s => s))
          ⟨"t4", EntityOrGetter.entry ⟨"E", (3:Nat)⟩, [incSub, dblSub], none⟩).1
      = Event.lock "E"
          :: ([] ++ (attemptBlocks
                ([incSub, dblSub].map subEvent ++ [Event.update]) 1
              ++ [Event.unlock])) := by
  obtain ⟨h1, h2, h3⟩ := claimC4_order_cumulative_retry [incSub, dblSub] (3 : Nat)
  refine ⟨h1.trans rfl, h2 1 (by decide), ?_⟩
  have h := h3 1 2 (by decide) "t4" (EntityOrGetter.entry ⟨"E", (3:Nat)⟩)
    (fun _ => ⟨"E", 3⟩) (fun _ s => s) (by simp) (fun s' => rfl)
  exact h.trans rfl

/-- C5: constructing a FeedTask from an explicit empty collection raises the
empty-feed error immediately; constructing from a lazy fetcher succeeds
without examining it, and the same empty-feed error appears only at the
first feed-materializing operation (get_wrapper_task) when the fetcher
returns an empty result. -/
theorem claimC5_empty_feed {σ : Type} (name key : String)
    (fetched : List (Entity σ)) :
    FeedTask.make name (FeedSource.explicitList ([] : List (Entity σ)))
      = Except.error TxError.emptyFeed
    ∧ FeedTask.make name (FeedSource.fetcher fetched)
      = Except.ok ⟨name, FeedSource.fetcher fetched, []⟩
    ∧ (fetched = [] →
        FeedTask.get_wrapper_task ⟨name, FeedSource.fetcher fetched, []⟩ key
          = Except.error TxError.emptyFeed) := by
  refine ⟨rfl, rfl, ?_⟩
  intro h
  subst h
  rfl

/-- Witness for C5 over Nat entities with an empty lazy fetcher. -/
theorem claimC5_witness :
    FeedTask.make "ft" (FeedSource.explicitList ([] : List (Entity Nat)))
      = Except.error TxError.emptyFeed
    ∧ FeedTask.make "ft" (FeedSource.fetcher ([] : List (Entity Nat)))
      = Except.ok ⟨"ft", FeedSource.fetcher [], []⟩
    ∧ FeedTask.get_wrapper_task
        ⟨"ft", FeedSource.fetcher ([] : List (Entity Nat)), []⟩ "uuid"
      = Except.error TxError.emptyFeed := by
  obtain ⟨h1, h2, h3⟩ := claimC5_empty_feed "ft" "uuid" ([] : List (Entity Nat))
  exact ⟨h1, h2, h3 rfl⟩

/-- C6: execute() with zero attached Subtasks fails with the no-subtasks
error, producing no events whatsoever (no lock, no fetch, no update) and
leaving the task unchanged; add_subtask with a non-Subtask object fails
with a value error and yields no new task state. -/
theorem claimC6_error_paths {σ : Type} (name : String) (og : EntityOrGetter σ)
    (cached : Option (Entity σ)) (ceiling : Nat) (refreshF : Entity σ → Entity σ)
    (updateF : Nat → σ → Except TxError σ) (v : PyVal) (t : WrapperTask σ) :
    WrapperTask.execute ceiling refreshF updateF ⟨name, og, [], cached⟩
      = ([], Except.error TxError.noSubtasks, ⟨name, og, [], cached⟩)
    ∧ t.add_subtask (PyObj.otherObj v) = Except.error TxError.valueError := by
  exact ⟨rfl, rfl⟩

/-- C7: a Subtask return value is interpreted purely by truthiness — for a
functor-wrapped arbitrary free function, the WrapperTask persists exactly
once when the returned value is truthy and never when it is falsy; zero,
the empty string, the empty list, the empty dict, False and None are falsy,
and nonzero ints, non-empty strings, non-empty containers and True are
truthy. -/
theorem claimC7_truthiness {σ : Type}
    (f : σ → List PyVal → List (String × PyVal) → σ × PyVal)
    (args : List PyVal) (kwargs : List (String × PyVal)) (name : String)
    (og : EntityOrGetter σ) (ceiling : Nat) (refreshF : Entity σ → Entity σ)
    (u : Nat → σ → σ) :
    countEv Event.isUpdate
        (WrapperTask.execute ceiling refreshF (okPersist u)
          ⟨name, og, [FunctorSubtask f args kwargs], none⟩).1
      = (if truthy (f og.materialize.2.state args kwargs).2 then 1 else 0)
    ∧ (truthy (PyVal.int 0) = false ∧ truthy (PyVal.str "") = false
       ∧ truthy (PyVal.list []) = false ∧ truthy (PyVal.dict []) = false
       ∧ truthy (PyVal.bool false) = false ∧ truthy PyVal.pynone = false)
    ∧ (∀ n : Int, n ≠ 0 → truthy (PyVal.int n) = true)
    ∧ (∀ s : String, s ≠ "" → truthy (PyVal.str s) = true)
    ∧ (∀ (x : PyVal) (xs : List PyVal), truthy (PyVal.list (x :: xs)) = true)
    ∧ (∀ (kv : String × PyVal) (kvs : List (String × PyVal)),
        truthy (PyVal.dict (kv :: kvs)) = true)
    ∧ truthy (PyVal.bool true) = true := by
  refine ⟨?_, ⟨by decide, by decide, by decide, by decide, rfl, rfl⟩,
    ?_, ?_, fun x xs => rfl, fun kv kvs => rfl, rfl⟩
  · have hch : ∀ s, anyChanged [FunctorSubtask f args kwargs] s
        = truthy (f s args kwargs).2 := by
      intro s
      simp [anyChanged, FunctorSubtask]
    have h := execute_okPersist_updates ceiling refreshF u
      ⟨name, og, [FunctorSubtask f args kwargs], none⟩ (by simp)
    rw [hch] at h
    exact h
  · intro n h
    simpa [truthy] using h
  · intro s h
    simpa [truthy] using h

/-- Witness for C7: the functor subtask returning its bound argument — the
five falsy sample values never persist, the five truthy sample values
persist exactly once. -/
theorem claimC7_witness :
    countEv Event.isUpdate
        (WrapperTask.execute 3 (fun e => e) (okPersist (fun _ s => s))
          ⟨"t7", EntityOrGetter.entry ⟨"E", (0:Nat)⟩,
            [FunctorSubtask (fun s a _ => (s, a.headD PyVal.pynone))
              [PyVal.int 0] []], none⟩).1 = 0
    ∧ countEv Event.isUpdate
        (WrapperTask.execute 3 (fun e => e) (okPersist (fun _ s => s))
          ⟨"t7", EntityOrGetter.entry ⟨"E", (0:Nat)⟩,
            [FunctorSubtask (fun s a _ => (s, a.headD PyVal.pynone))
              [PyVal.str "string"] []], none⟩).1 = 1
    ∧ truthy (PyVal.int 17) = true := by
  refine ⟨?_, ?_, ?_⟩
  · have h := (claimC7_truthiness (fun (s : Nat) a _ => (s, a.headD PyVal.pynone))
      [PyVal.int 0] [] "t7" (EntityOrGetter.entry ⟨"E", (0:Nat)⟩) 3
      (fun e => e) (fun _ s => s)).1
    rw [h]
    rfl
  · have h := (claimC7_truthiness (fun (s : Nat) a _ => (s, a.headD PyVal.pynone))
      [PyVal.str "string"] [] "t7" (EntityOrGetter.entry ⟨"E", (0:Nat)⟩) 3
      (fun e => e) (fun _ s => s)).1
    rw [h]
    rfl
  · exact (claimC7_truthiness (fun (s : Nat) _ _ => (s, PyVal.pynone)) [] [] "w"
      (EntityOrGetter.entry ⟨"E", (0:Nat)⟩) 1 (fun e => e) (fun _ s => s)).2.2.1
      17 (by decide)

/-- C8: FeedTask.execute always completes structurally with one result slot
per feed member, in feed order and keyed by each entity's key; slot j is
exactly the outcome of entity j's own independent WrapperTask (failures are
captured in the slot, not propagated); and changing the Persist behaviour of
one entity's key never affects any other entity's slot. -/
theorem claimC8_feed_isolation {σ : Type} (ft : FeedTask σ) (ceiling : Nat)
    (refreshF : Entity σ → Entity σ)
    (updF updF' : String → Nat → σ → Except TxError σ) (badKey : String)
    (hagree : ∀ k, k ≠ badKey → updF k = updF' k) :
    ((FeedTask.execute ceiling refreshF updF ft).map Prod.fst
      = ft.feed.contents.map Entity.key)
    ∧ (FeedTask.execute ceiling refreshF updF ft).length
      = ft.feed.contents.length
    ∧ (∀ (j : Nat) (e : Entity σ), ft.feed.contents.get? j = some e →
        (FeedTask.execute ceiling refreshF updF ft).get? j
          = some (e.key, (WrapperTask.execute ceiling refreshF (updF e.key)
              ⟨ft.name ++ "_" ++ e.key, EntityOrGetter.entry e,
                ft.common_subtasks, none⟩).2.1))
    ∧ (∀ (j : Nat) (e : Entity σ), ft.feed.contents.get? j = some e →
        e.key ≠ badKey →
        (FeedTask.execute ceiling refreshF updF ft).get? j
          = (FeedTask.execute ceiling refreshF updF' ft).get? j) := by
  have hslot : ∀ (upd : String → Nat → σ → Except TxError σ) (j : Nat)
      (e : Entity σ), ft.feed.contents.get? j = some e →
      (FeedTask.execute ceiling refreshF upd ft).get? j
        = some (e.key, (WrapperTask.execute ceiling refreshF (upd e.key)
            ⟨ft.name ++ "_" ++ e.key, EntityOrGetter.entry e,
              ft.common_subtasks, none⟩).2.1) := by
    intro upd j e hj
    unfold FeedTask.execute
    rw [List.get?_map, hj]
    rfl
  refine ⟨?_, ?_, hslot updF, ?_⟩
  · unfold FeedTask.execute
    rw [List.map_map]
    rfl
  · unfold FeedTask.execute
    rw [List.length_map]
  · intro j e hj hk
    rw [hslot updF j e hj, hslot updF' j e hj, hagree e.key hk]

/-- Witness for C8: a feed {A, B, C} where B's Persist raises a non-conflict
error — A and C still commit, B's error is captured in its slot, and B's
behaviour does not affect A's slot. -/
theorem claimC8_witness :
    ((FeedTask.execute 4 (fun e => e)
        (fun k => if k = "B"
          then (fun _ _ => (Except.error (TxError.otherErr "boom") : Except TxError Nat))
          else (fun _ s => Except.ok (s + 1)))
        ⟨"f8", FeedSource.explicitList [⟨"A", 10⟩, ⟨"B", 20⟩, ⟨"C", 30⟩],
          [incSub]⟩).map Prod.fst = ["A", "B", "C"])
    ∧ ((FeedTask.execute 4 (fun e => e)
        (fun k => if k = "B"
          then (fun _ _ => (Except.error (TxError.otherErr "boom") : Except TxError Nat))
          else (fun _ s => Except.ok (s + 1)))
        ⟨"f8", FeedSource.explicitList [⟨"A", 10⟩, ⟨"B", 20⟩, ⟨"C", 30⟩],
          [incSub]⟩).get? 0 = some ("A", Except.ok ⟨"A", 12⟩))
    ∧ ((FeedTask.execute 4 (fun e => e)
        (fun k => if k = "B"
          then (fun _ _ => (Except.error (TxError.otherErr "boom") : Except TxError Nat))
          else (fun _ s => Except.ok (s + 1)))
        ⟨"f8", FeedSource.explicitList [⟨"A", 10⟩, ⟨"B", 20⟩, ⟨"C", 30⟩],
          [incSub]⟩).get? 1 = some ("B", Except.error (TxError.otherErr "boom")))
    ∧ ((FeedTask.execute 4 (fun e => e)
        (fun k => if k = "B"
          then (fun _ _ => (Except.error (TxError.otherErr "boom") : Except TxError Nat))
          else (fun _ s => Except.ok (s + 1)))
        ⟨"f8", FeedSource.explicitList [⟨"A", 10⟩, ⟨"B", 20⟩, ⟨"C", 30⟩],
          [incSub]⟩).get? 2 = some ("C", Except.ok ⟨"C", 32⟩))
    ∧ ((FeedTask.execute 4 (fun e => e)
        (fun k => if k = "B"
          then (fun _ _ => (Except.error (TxError.otherErr "boom") : Except TxError Nat))
          else (fun _ s => Except.ok (s + 1)))
        ⟨"f8", FeedSource.explicitList [⟨"A", 10⟩, ⟨"B", 20⟩, ⟨"C", 30⟩],
          [incSub]⟩).get? 0
      = (FeedTask.execute 4 (fun e => e)
          (fun _ => fun _ s => (Except.ok (s + 1) : Except TxError Nat))
          ⟨"f8", FeedSource.explicitList [⟨"A", 10⟩, ⟨"B", 20⟩, ⟨"C", 30⟩],
            [incSub]⟩).get? 0) := by
  obtain ⟨h1, h2, h3, h4⟩ := claimC8_feed_isolation
    ⟨"f8", FeedSource.explicitList [⟨"A", (10:Nat)⟩, ⟨"B", 20⟩, ⟨"C", 30⟩], [incSub]⟩
    4 (fun e => e)
    (fun k => if k = "B"
      then (fun _ _ => (Except.error (TxError.otherErr "boom") : Except TxError Nat))
      else (fun _ s => Except.ok (s + 1)))
    (fun _ => fun _ s => (Except.ok (s + 1) : Except TxError Nat))
    "B" (fun k hk => by simp [hk])
  exact ⟨h1.trans rfl, (h3 0 ⟨"A", 10⟩ rfl).trans rfl,
    (h3 1 ⟨"B", 20⟩ rfl).trans rfl, (h3 2 ⟨"C", 30⟩ rfl).trans rfl,
    h4 0 ⟨"A", 10⟩ rfl (by decide)⟩

/-- C9: building a WrapperTask from another task's current subtask sequence
copies the sequence by value — appending to the clone yields the original
sequence plus the new subtask while the original's sequence is unaffected,
appending to the original likewise never reaches the clone, the shared
Subtask objects themselves are unchanged, and the clone executes the copied
subtasks in their original order followed by its own additions. -/
theorem claimC9_clone_value_copy {σ : Type} (t1 : WrapperTask σ) (name2 : String)
    (og2 : EntityOrGetter σ) (stNew stBogus : Subtask σ) (ceiling : Nat)
    (refreshF : Entity σ → Entity σ) (u : Nat → σ → σ) :
    (WrapperTask.add_subtask ⟨name2, og2, t1.subtasks, none⟩ (PyObj.subtask stNew)
      = Except.ok ⟨name2, og2, t1.subtasks ++ [stNew], none⟩)
    ∧ (t1.add_subtask (PyObj.subtask stBogus)
      = Except.ok ⟨t1.name, t1.og, t1.subtasks ++ [stBogus], t1.cached⟩)
    ∧ ((⟨name2, og2, t1.subtasks ++ [stNew], none⟩ : WrapperTask σ).subtasks
      = t1.subtasks ++ [stNew])
    ∧ ((WrapperTask.execute ceiling refreshF (okPersist u)
          ⟨name2, og2, t1.subtasks ++ [stNew], none⟩).1.filter Event.isSub
      = (t1.subtasks ++ [stNew]).map subEvent)
    ∧ ((WrapperTask.execute ceiling refreshF (okPersist u)
          ⟨t1.name, t1.og, t1.subtasks ++ [stBogus], t1.cached⟩).1.filter Event.isSub
      = (t1.subtasks ++ [stBogus]).map subEvent) := by
  refine ⟨rfl, rfl, rfl, ?_, ?_⟩
  · exact execute_okPersist_subs ceiling refreshF u
      ⟨name2, og2, t1.subtasks ++ [stNew], none⟩ (by simp)
  · exact execute_okPersist_subs ceiling refreshF u
      ⟨t1.name, t1.og, t1.subtasks ++ [stBogus], t1.cached⟩ (by simp)

/-- C10 (amended): for a WrapperTask over an unmaterialized getter, across
any sequence of wrapper-property accesses and conflict-free execute calls,
Fetch is invoked at most once in total; an already-materialized task is
never re-fetched by either operation; an access on an unmaterialized task
fetches exactly once, outside any lock, and materializes the task; and an
execute on a never-materialized task fetches inside the lock, immediately
after acquiring it.  (The unamended claim — at most one fetch across ANY
sequence of calls, including failing executes — fails, as the separate
concrete counterexample shows: a failed execute does not cache the entity,
so the next execute fetches again.) -/
theorem claimC10_fetch_at_most_once {σ : Type} (ops : List WtOp)
    (name key : String) (fe : Entity σ) (sts : List (Subtask σ)) (ceiling : Nat)
    (refreshF : Entity σ → Entity σ) (u : Nat → σ → σ) :
    countEv Event.isGet
        (runOps ceiling refreshF (okPersist u) ops
          ⟨name, EntityOrGetter.getter key fe, sts, none⟩).1 ≤ 1
    ∧ (∀ t : WrapperTask σ, fetchDone t = true → t.wrapperAccess.2.2 = [])
    ∧ (∀ t : WrapperTask σ, fetchDone t = false →
        t.wrapperAccess.2.2 = [Event.get] ∧ fetchDone t.wrapperAccess.2.1 = true)
    ∧ (∀ t : WrapperTask σ, fetchDone t = true →
        countEv Event.isGet
          (WrapperTask.execute ceiling refreshF (okPersist u) t).1 = 0)
    ∧ (sts ≠ [] →
        (WrapperTask.execute ceiling refreshF (okPersist u)
          ⟨name, EntityOrGetter.getter key fe, sts, none⟩).1.take 2
          = [Event.lock key, Event.get]) := by
  refine ⟨(runOps_gets ceiling refreshF u ops _).2,
    fun t ht => (wrapperAccess_done t ht).1,
    fun t ht => wrapperAccess_not_done t ht, ?_, ?_⟩
  · intro t ht
    have h := (execute_okPersist_gets ceiling refreshF u t).1
    rw [h, ht]
    by_cases hemp : t.subtasks.isEmpty <;> simp [hemp]
  · intro hne
    have h := execute_okPersist ceiling refreshF u
      ⟨name, EntityOrGetter.getter key fe, sts, none⟩ hne
    rw [h]
    rfl

/-- Witness for C10: access-then-execute on a getter-bound task fetches
exactly once in total; a cached task's access produces no events; a fresh
execute locks then fetches. -/
theorem claimC10_witness :
    countEv Event.isGet
        (runOps 5 (fun e => e) (okPersist (fun _ s => s))
          [WtOp.access, WtOp.exec, WtOp.exec]
          ⟨"t10", EntityOrGetter.getter "gk" ⟨"gk", (4:Nat)⟩,
            [incSub], none⟩).1 ≤ 1
    ∧ (⟨"t10", EntityOrGetter.getter "gk" ⟨"gk", (4:Nat)⟩, [incSub],
        some ⟨"gk", 4⟩⟩ : WrapperTask Nat).wrapperAccess.2.2 = []
    ∧ (WrapperTask.execute 5 (fun e => e) (okPersist (fun _ s => s))
        ⟨"t10", EntityOrGetter.getter "gk" ⟨"gk", (4:Nat)⟩,
          [incSub], none⟩).1.take 2 = [Event.lock "gk", Event.get] := by
  obtain ⟨h1, h2, h3, h4, h5⟩ := claimC10_fetch_at_most_once
    [WtOp.access, WtOp.exec, WtOp.exec] "t10" "gk" (⟨"gk", (4:Nat)⟩ : Entity Nat)
    [incSub] 5 (fun e => e) (fun _ s => s)
  exact ⟨h1, h2 _ rfl, h5 (by simp)⟩

/-- Counterexample to C10 as stated: with a Persist that always conflicts
and retry ceiling 0, each failing execute() of a never-materialized task
fetches once and does not cache, so two execute() calls fetch twice — more
than once over the task's lifetime. -/
theorem claimC10_counterexample :
    countEv Event.isGet
        (runOps 0 (fun e => e) (fun _ _ => Except.error TxError.conflict)
          [WtOp.exec, WtOp.exec]
          ⟨"t", EntityOrGetter.getter "k" ⟨"k", (0:Nat)⟩, [incSub], none⟩).1 = 2
    ∧ ¬((2 : Nat) ≤ 1) := by
  exact ⟨rfl, by decide⟩
